import Mathlib

/-!
# Verification of the meeba-farm simulation core

A shallow embedding of the simulation engine of the meeba-farm repository:
the seeded pseudo-random number generator, the genome codec (creation,
reading, replication/mutation), the vitals/metabolism functions (both the
current generation in `app/meebas/vitals.js` and the earlier generation),
the body factory (`replicateParent`), the spike factory (both deployed
`spawnSpike` variants) and the legacy elastic collision routine.

JavaScript numbers are modelled as `ℚ` (exact rational arithmetic) except
where the source calls genuinely real-valued primitives (`Math.sqrt`,
`Math.sin`, `Math.cos`, `Math.atan`, fractional `**` exponents), which are
modelled over `ℝ`.  `Math.floor` is modelled by `Int.floor`.  The
lookup-table trigonometry of `utils/math.js` is an external collaborator of
the core (spec §6) and is passed in as an abstract function bundle.

The stateful PRNG stream consumed by `rand()` is modelled by an explicit
finite list of draws threaded through every stochastic function; an
exhausted list behaves as a roll of `1` (the largest value the source
generator can produce).  All theorems about stochastic functions quantify
over the draw list.
-/

namespace MeebaFarm

/-- `Math.floor`, as a map of `ℚ` into the integer-valued rationals. -/
def mfloor (q : ℚ) : ℚ := ((⌊q⌋ : ℤ) : ℚ)

/-! ## Random draws

The source's `rand()` produces one scalar per call.  We model the stream of
values it returns by a finite list of rationals which each stochastic
function consumes from the front and threads through. -/

/-- The stream of values returned by successive `rand()` calls. -/
abbrev Draws := List ℚ

/-- One `rand()` call: consume the next draw.  An exhausted list yields `1`,
the supremum of the values the source generator produces. -/
def randDraw : Draws → ℚ × Draws
  | [] => (1, [])
  | r :: rest => (r, rest)

/-- `randInt(min, max)` from `utils/math.js`:
`min + Math.floor(rand() * (max - min))`. -/
def randInt (min max : ℚ) (d : Draws) : ℚ × Draws :=
  (min + mfloor ((randDraw d).1 * (max - min)), (randDraw d).2)

/-- `range(n)` from `utils/arrays.js` as used by the genome codec: the list
`[0, …, n−1]` (empty for non-positive `n`). -/
def range (q : ℚ) : List ℕ := List.range (⌊q⌋.toNat)

/-- Every draw of the list lies in the closed unit interval. -/
def DrawsInUnit (d : Draws) : Prop := ∀ r ∈ d, 0 ≤ r ∧ r ≤ 1

/-! ## Deterministic PRNG (`getPrng` in `utils/math.js`)

`getPrng` parses a base-36 seed string and closes over a mutable `seed`;
each call performs `seed = (seed * 16807) % 2147483647` and returns
`seed / 2147483646`. -/

/-- `parseInt(alphaNumSeed, 36)` on a list of base-36 digit values. -/
def parseBase36 (digits : List ℕ) : ℕ :=
  digits.foldl (fun acc d => 36 * acc + d) 0

/-- One update of the generator state: `seed = (seed * 16807) % 2147483647`. -/
def prngStep (seed : ℕ) : ℕ := seed * 16807 % 2147483647

/-- The generator state after `n` updates from the parsed seed. -/
def prngState (seed0 : ℕ) (n : ℕ) : ℕ := prngStep^[n] seed0

/-- The value returned by the `n`-th call of `rand()` (0-indexed): the state
after `n + 1` updates, divided by `2147483646`. -/
def prngOutput (seed0 : ℕ) (n : ℕ) : ℚ :=
  (prngState seed0 (n + 1) : ℚ) / 2147483646

/-! ## Vitals (`app/meebas/vitals.js`, current generation) -/

/-- The spike fields the vitals computation consumes, plus the geometry the
spike factory fills in.  Numeric fields are `ℚ`; `deactivateTime` is the
nullable cooldown timestamp. -/
structure Spike where
  fill : String
  length : ℚ
  drain : ℚ
  x1 : ℚ
  y1 : ℚ
  x2 : ℚ
  y2 : ℚ
  x3 : ℚ
  y3 : ℚ
  offsetX1 : ℚ
  offsetY1 : ℚ
  offsetX2 : ℚ
  offsetY2 : ℚ
  offsetX3 : ℚ
  offsetY3 : ℚ
  deactivateTime : Option ℚ
  deriving Repr, DecidableEq

/-- The life-cycle properties of a meeba (current generation). -/
structure Vitals where
  calories : ℚ
  upkeep : ℚ
  diesAt : ℚ
  spawnsAt : ℚ
  isDead : Bool
  deriving Repr, DecidableEq

/-- The configuration snapshot the vitals module reads: the fixed
`settings.vitals` entries, `settings.core.temperature`, and the JavaScript
`**` operator for the two fractional exponents, passed in as an abstract
function `qpow` (its value is never constrained by a claim). -/
structure VitalsSettings where
  percentDiesAt : ℚ
  percentSpawnsAt : ℚ
  upkeepPerSpike : ℚ
  spikeCountExponent : ℚ
  upkeepPerMass : ℚ
  massCalorieExponent : ℚ
  baseUpkeepAdjustment : ℚ
  temperature : ℚ
  qpow : ℚ → ℚ → ℚ

/-- `dynamic.percentStartsAt`: midpoint of the death and spawn percentages. -/
def percentStartsAt (s : VitalsSettings) : ℚ :=
  (s.percentDiesAt + s.percentSpawnsAt) / 2

/-- `dynamic.upkeepAdjustment`: the base adjustment scaled linearly by the
ambient temperature clamped at zero. -/
def upkeepAdjustment (s : VitalsSettings) : ℚ :=
  s.baseUpkeepAdjustment * (max 0 s.temperature / 30)

/-- `calcSpikeUpkeep`: `(count * upkeepPerSpike) ** spikeCountExponent`
plus the sum of the spike lengths. -/
def calcSpikeUpkeep (s : VitalsSettings) (spikes : List Spike) : ℚ :=
  s.qpow ((spikes.length : ℚ) * s.upkeepPerSpike) s.spikeCountExponent
    + (spikes.map Spike.length).foldl (· + ·) 0

/-- `calcUpkeep`: mass and spike costs, adjusted by
`1 / mass ** massCalorieExponent` and the temperature adjustment, floored. -/
def calcUpkeep (s : VitalsSettings) (mass : ℚ) (spikes : List Spike) : ℚ :=
  let massAdjustment := 1 / s.qpow mass s.massCalorieExponent
  let massCost := mass * s.upkeepPerMass
  let spikeCost := calcSpikeUpkeep s spikes
  mfloor ((massCost + spikeCost) * massAdjustment * upkeepAdjustment s)

/-- `initVitals` from `app/meebas/vitals.js`. -/
def initVitals (s : VitalsSettings) (mass : ℚ) (spikes : List Spike) : Vitals :=
  let calories := mfloor (mass * percentStartsAt s)
  let diesAt := mfloor (mass * s.percentDiesAt)
  { calories := calories
    upkeep := calcUpkeep s mass spikes
    diesAt := diesAt
    spawnsAt := mfloor (mass * s.percentSpawnsAt)
    isDead := calories < diesAt }

/-- `drainCalories` from `app/meebas/vitals.js`: subtracts the lesser of the
requested drain and the current calories (mutation modelled by returning the
updated record) and returns the actual amount drained. -/
def drainCalories (v : Vitals) (drain : ℚ) : Vitals × ℚ :=
  let actualDrain := if v.calories > drain then drain else v.calories
  ({ v with calories := v.calories - actualDrain }, actualDrain)

/-- Modelled from the spec: `setCalories` is imported from `vitals.js` by the
body factory, but the current-generation definition is absent from the
sources (only its caller and an earlier pure variant are present).  Per
§4.3's chosen contract it updates the record in place, and per §3's
invariant it recomputes `isDead` against `diesAt`. -/
def setCalories (v : Vitals) (calories : ℚ) : Vitals :=
  { v with calories := calories, isDead := calories < v.diesAt }

namespace Legacy

/-- The life-cycle properties of a meeba (earlier generation, without
upkeep). -/
structure Vitals where
  calories : ℚ
  diesAt : ℚ
  spawnsAt : ℚ
  isDead : Bool
  deriving Repr, DecidableEq

/-- `CALORIES_DEATH` from the earlier vitals module. -/
def CALORIES_DEATH : ℚ := 1 / 2

/-- `CALORIES_SPAWN` from the earlier vitals module. -/
def CALORIES_SPAWN : ℚ := 2

/-- `CALORIES_START`: midpoint of the death and spawn coefficients. -/
def CALORIES_START : ℚ := (CALORIES_DEATH + CALORIES_SPAWN) / 2

/-- `initVitals` (earlier generation): thresholds floored from fixed
coefficients of the mass, with `isDead` computed from them. -/
def initVitals (mass : ℚ) : Vitals :=
  let calories := mfloor (mass * CALORIES_START)
  let diesAt := mfloor (mass * CALORIES_DEATH)
  let spawnsAt := mfloor (mass * CALORIES_SPAWN)
  { calories := calories, diesAt := diesAt, spawnsAt := spawnsAt
    isDead := calories < diesAt }

/-- `setCalories` (earlier generation): returns a copy with the new calorie
level and a recomputed `isDead`. -/
def setCalories (v : Vitals) (calories : ℚ) : Vitals :=
  { v with calories := calories, isDead := calories < v.diesAt }

/-- `drainCalories` (earlier generation): returns the new vitals (with
`isDead` recomputed) together with the actual calories drained. -/
def drainCalories (v : Vitals) (drain : ℚ) : Vitals × ℚ :=
  let calories := if drain < v.calories then v.calories - drain else 0
  ({ v with calories := calories, isDead := calories < v.diesAt },
    if calories > 0 then drain else v.calories)

end Legacy

/-! ## Genome codec (`app/meebas/genome.js`, current generation)

Genomes are byte sequences; a `Uint8Array` is modelled by a `List ℕ` whose
elements the source keeps below `256`.  The raw numbers produced before the
`Uint8Array.from` coercion are `ℚ` values. -/

/-- The configuration snapshot the genome codec reads: the dynamic limits
and mutation rates (already scaled by volatility) and the fixed per-type
percentages and bit divisors. -/
structure GenomeSettings where
  maxGeneCount : ℚ
  maxGeneSize : ℚ
  chanceMutateBit : ℚ
  chanceDropByte : ℚ
  chanceRepeatByte : ℚ
  chanceTransposeByte : ℚ
  chanceDropGene : ℚ
  chanceRepeatGene : ℚ
  chanceTransposeGene : ℚ
  percentSizeGenes : ℚ
  percentSpikeGenes : ℚ
  percentRedGenes : ℚ
  percentGreenGenes : ℚ
  percentBlueGenes : ℚ
  bitsPerMass : ℚ
  bitsPerSpikeLength : ℚ

/-- The `BYTES` table: each control byte paired with its configured odds. -/
def controlBytesTable (s : GenomeSettings) : List (ℕ × ℚ) :=
  [(0xF0, s.percentSizeGenes), (0xF1, s.percentSpikeGenes),
   (0xF2, s.percentRedGenes), (0xF3, s.percentGreenGenes),
   (0xF4, s.percentBlueGenes)]

/-- Cumulative-threshold helper for `controlByteRolls`: each byte paired
with the running total of normalized odds up to and including it. -/
def cumulativeRolls (ratioToOne : ℚ) (acc : ℚ) :
    List (ℕ × ℚ) → List (ℕ × ℚ)
  | [] => []
  | (byte, chance) :: rest =>
    let maxRoll := chance * ratioToOne + acc
    (byte, maxRoll) :: cumulativeRolls ratioToOne maxRoll rest

/-- `dynamic.controlByteRolls`: the `BYTES` odds normalized to sum to one
and accumulated into increasing roll thresholds. -/
def controlByteRolls (s : GenomeSettings) : List (ℕ × ℚ) :=
  let table := controlBytesTable s
  let ratioToOne := 1 / ((table.map Prod.snd).foldl (· + ·) 0)
  cumulativeRolls ratioToOne 0 table

/-- `randControlByte`: roll once and pick the first table entry whose
threshold exceeds the roll, falling back to the last entry. -/
def randControlByte (s : GenomeSettings) (d : Draws) : ℕ × Draws :=
  let rolls := controlByteRolls s
  let roll := (randDraw d).1
  match rolls.find? (fun br => roll < br.2) with
  | some br => (br.1, (randDraw d).2)
  | none => ((rolls.getLast? |>.map Prod.fst).getD 0, (randDraw d).2)

/-- Draw `n` values sequentially with a stateful generator. -/
def drawList (gen : Draws → α × Draws) : ℕ → Draws → List α × Draws
  | 0, d => ([], d)
  | n + 1, d =>
    let x := gen d
    let xs := drawList gen n x.2
    (x.1 :: xs.1, xs.2)

/-- `randGene`: a random number of random body bytes, preceded by a random
control byte.  The source evaluates the body first, so its draws are
consumed before the control byte's. -/
def randGene (s : GenomeSettings) (d : Draws) : List ℚ × Draws :=
  let n := randInt 1 s.maxGeneSize d
  let body := drawList (fun d => randInt 0 256 d) (range n.1).length n.2
  let c := randControlByte s body.2
  ((c.1 : ℚ) :: body.1, c.2)

/-- The `ToUint8` coercion applied by `Uint8Array.from`: truncate and reduce
modulo 256. -/
def toUint8 (q : ℚ) : ℕ := (⌊q⌋ % 256).toNat

/-- `createGenome`: a random count of random genes, flattened into one byte
sequence. -/
def createGenome (s : GenomeSettings) (d : Draws) : List ℕ × Draws :=
  let count := randInt 1 s.maxGeneCount d
  let genes := drawList (randGene s) (range count.1).length count.2
  ((genes.1.flatten).map toUint8, genes.2)

/-- `countBits` on a single byte: the number of 1s in its binary expansion. -/
def bitCount : ℕ → ℕ
  | 0 => 0
  | n + 1 => (n + 1) % 2 + bitCount ((n + 1) / 2)
decreasing_by exact Nat.div_lt_self (Nat.succ_pos n) (by omega)

/-- `countBits`: total population count of a byte sequence. -/
def countBits (bytes : List ℕ) : ℕ := (bytes.map bitCount).foldl (· + ·) 0

/-- `findControlIndexes`: positions of the bytes with value `≥ 0xF0`. -/
def findControlIndexes (genome : List ℕ) : List ℕ :=
  (genome.enum.filter (fun ib => 0xF0 ≤ ib.2)).map Prod.fst

/-- Parsed representation of a single gene. -/
structure Gene where
  type : ℕ
  location : ℚ
  bytes : List ℕ
  deriving Repr, DecidableEq

/-- `genome.slice(start, end?)`: the sub-sequence from `start` up to the
optional exclusive `end`. -/
def sliceFrom (genome : List ℕ) (start : ℕ) : Option ℕ → List ℕ
  | some stop => (genome.drop start).take (stop - start)
  | none => genome.drop start

/-- `toGenes`: one gene per control byte, holding its type, its fractional
location within the genome, and the body bytes up to the next control
byte. -/
def toGenes (genome : List ℕ) : List Gene :=
  let indexes := findControlIndexes genome
  indexes.enum.map fun ii =>
    { type := genome.getD ii.2 0
      location := (ii.2 : ℚ) / (genome.length : ℚ)
      bytes := sliceFrom genome (ii.2 + 1) (indexes.get? (ii.1 + 1)) }

/-- `countTypeBits`: the bit census of all genes of one type. -/
def countTypeBits (typeByte : ℕ) (genes : List Gene) : ℕ :=
  ((genes.filter (fun g => g.type = typeByte)).map
    (fun g => countBits g.bytes)).foldl (· + ·) 0

/-- Instructions for building a spike. -/
structure SpikeCommand where
  angle : ℚ
  length : ℚ
  deriving Repr, DecidableEq

/-- `readSpikeGene`: the gene's location becomes the spike angle, its bit
census divided by `bitsPerSpikeLength` (floored) its length. -/
def readSpikeGene (s : GenomeSettings) (g : Gene) : SpikeCommand :=
  { angle := g.location
    length := mfloor ((countBits g.bytes : ℚ) / s.bitsPerSpikeLength) }

/-- Instructions for building a meeba. -/
structure Commands where
  size : ℚ
  spikes : List SpikeCommand
  hue : ℚ
  deriving Repr, DecidableEq

/-- `readGenome`: size from the size-type bit census, one spike command per
spike gene, and a hue delegated to the external `rgbToHue` collaborator
applied to the three color bit censuses. -/
def readGenome (s : GenomeSettings) (rgbToHue : ℕ → ℕ → ℕ → ℚ)
    (genome : List ℕ) : Commands :=
  let genes := toGenes genome
  { size := mfloor ((countTypeBits 0xF0 genes : ℚ) / s.bitsPerMass)
    spikes := (genes.filter (fun g => g.type = 0xF1)).map (readSpikeGene s)
    hue := rgbToHue (countTypeBits 0xF2 genes) (countTypeBits 0xF3 genes)
      (countTypeBits 0xF4 genes) }

/-! ## Genome replication pipeline (`replicateGenome`) -/

/-- `mutateBits`: build an 8-character binary mask (one `rand()` per bit,
most significant first, set when the roll is under the mutation chance),
parse it and XOR it onto the byte. -/
def mutateBits (chance : ℚ) (byte : ℕ) (d : Draws) : ℕ × Draws :=
  let rolls := drawList randDraw 8 d
  let xorMask :=
    (rolls.1.map (fun r => if r < chance then 1 else 0)).foldl
      (fun acc bit => 2 * acc + bit) 0
  (byte ^^^ xorMask, rolls.2)

/-- The stateful `map` of `utils/arrays.js` applied with a `rand`-consuming
function, threading the draw list left to right. -/
def mapRand (f : α → Draws → β × Draws) : List α → Draws → List β × Draws
  | [], d => ([], d)
  | x :: xs, d =>
    let y := f x d
    let ys := mapRand f xs y.2
    (y.1 :: ys.1, ys.2)

/-- The `filter` stage `filter(arr, () => rand() >= chance)`: one roll per
item, keeping the item when the roll is at least the drop chance. -/
def filterRand (chance : ℚ) : List α → Draws → List α × Draws
  | [], d => ([], d)
  | x :: xs, d =>
    let r := (randDraw d).1
    let ys := filterRand chance xs (randDraw d).2
    (if chance ≤ r then x :: ys.1 else ys.1, ys.2)

/-- `repeatItems`: push each item, then re-roll; a roll under the chance
steps the loop index back so the same item is pushed (and rolled for)
again.  An exhausted draw list behaves as a roll of `1`, ending the repeat
run as it would for any chance at most `1`. -/
def repeatItems (chance : ℚ) : List α → Draws → List α × Draws
  | [], d => ([], d)
  | x :: xs, [] =>
    let out := repeatItems chance xs []
    (x :: out.1, out.2)
  | x :: xs, r :: rest =>
    if r < chance then
      let out := repeatItems chance (x :: xs) rest
      (x :: out.1, out.2)
    else
      let out := repeatItems chance xs rest
      (x :: out.1, out.2)
termination_by l d => d.length + l.length

/-- First pass of `transposeItems`: one roll per item; items rolling under
the chance are pulled out (in order) for relocation, the rest keep their
relative order. -/
def transposeSplit (chance : ℚ) : List α → Draws → (List α × List α) × Draws
  | [], d => (([], []), d)
  | x :: xs, d =>
    let r := (randDraw d).1
    let p := transposeSplit chance xs (randDraw d).2
    (if r < chance then (p.1.1, x :: p.1.2) else (x :: p.1.1, p.1.2), p.2)

/-- `arr.splice(pos, 0, x)` with a non-negative position: insert `x` before
index `pos`, appending when `pos` reaches past the end. -/
def spliceInsert (l : List α) (pos : ℕ) (x : α) : List α :=
  l.take pos ++ x :: l.drop pos

/-- Second pass of `transposeItems`: splice each pulled-out item back in at
`randInt(0, transposed.length)`. -/
def insertMoved : List α → List α → Draws → List α × Draws
  | acc, [], d => (acc, d)
  | acc, x :: xs, d =>
    let p := randInt 0 (acc.length : ℚ) d
    insertMoved (spliceInsert acc (⌊p.1⌋.toNat) x) xs p.2

/-- `transposeItems`: shuffle each item with the given chance to a random
position, leaving the remaining items in relative order. -/
def transposeItems (chance : ℚ) (l : List α) (d : Draws) : List α × Draws :=
  let p := transposeSplit chance l d
  insertMoved p.1.1 p.1.2 p.2

/-- Modelled from the spec: `chunkBy` lives in `utils/arrays.js`, which is
absent from the sources.  Per §3/§4.2 re-segmentation starts a gene at each
control byte and ignores any leading non-control bytes; each chunk runs
from its control index up to the next one. -/
def chunkBy (arr : List ℕ) (getIndexes : List ℕ → List ℕ) : List (List ℕ) :=
  let indexes := getIndexes arr
  indexes.enum.map fun ii => sliceFrom arr ii.2 (indexes.get? (ii.1 + 1))

/-- `joinGeneArray`: concatenate the gene byte chunks back into one
sequence. -/
def joinGeneArray (genes : List (List ℕ)) : List ℕ := genes.flatten

/-- `replicateGenome`: the source's `pipe` chain — byte-level
mutate → drop → repeat → transpose, re-segmentation into genes, gene-level
drop → repeat → transpose, and re-concatenation. -/
def replicateGenome (s : GenomeSettings) (genome : List ℕ) (d : Draws) :
    List ℕ × Draws :=
  let mutated := mapRand (mutateBits s.chanceMutateBit) genome d
  let kept := filterRand s.chanceDropByte mutated.1 mutated.2
  let repeated := repeatItems s.chanceRepeatByte kept.1 kept.2
  let shuffled := transposeItems s.chanceTransposeByte repeated.1 repeated.2
  let genes := chunkBy shuffled.1 findControlIndexes
  let keptGenes := filterRand s.chanceDropGene genes shuffled.2
  let repeatedGenes := repeatItems s.chanceRepeatGene keptGenes.1 keptGenes.2
  let shuffledGenes :=
    transposeItems s.chanceTransposeGene repeatedGenes.1 repeatedGenes.2
  (joinGeneArray shuffledGenes.1, shuffledGenes.2)

/-! ### The replication pipeline as the spec words it

The following definitions restate the mutation operators in the spec's
vocabulary (§4.2) — independent per-bit flips, and a geometric repeat
emitting `1 + G` copies — for comparison with the source pipeline. -/

/-- Flip single bits of a byte in sequence: one roll per listed bit
position, XOR-ing `2 ^ k` onto the byte when the roll is under the
chance. -/
def flipBitsFrom (chance : ℚ) : List ℕ → ℕ → Draws → ℕ × Draws
  | [], b, d => (b, d)
  | k :: ks, b, d =>
    flipBitsFrom chance ks
      (if (randDraw d).1 < chance then b ^^^ 2 ^ k else b) (randDraw d).2

/-- Following the spec's words: each of the byte's 8 bits is flipped
independently with the mutation chance, highest bit first (the order the
source consumes its rolls). -/
def specFlipByte (chance : ℚ) (byte : ℕ) (d : Draws) : ℕ × Draws :=
  flipBitsFrom chance [7, 6, 5, 4, 3, 2, 1, 0] byte d

/-- The geometric re-roll count: the number of consecutive rolls under the
chance (a duplicated item re-rolls for further duplication). -/
def countRepeats (chance : ℚ) : Draws → ℕ × Draws
  | [] => (0, [])
  | r :: rest =>
    if r < chance then
      let n := countRepeats chance rest
      (n.1 + 1, n.2)
    else (0, rest)

/-- Following the spec's words: each item is duplicated in place by a
geometric repeat, emitting one copy plus one further copy per consecutive
successful re-roll. -/
def specRepeatItems (chance : ℚ) : List α → Draws → List α × Draws
  | [], d => ([], d)
  | x :: xs, d =>
    let n := countRepeats chance d
    let out := specRepeatItems chance xs n.2
    (List.replicate (n.1 + 1) x ++ out.1, out.2)

/-- Following the spec's words (§4.2): bit-flip each byte independently,
drop each byte, geometrically duplicate each surviving byte, relocate each
byte; re-segment into genes at control bytes; drop, geometrically
duplicate and relocate genes with their own rates; re-concatenate. -/
def replicateGenomeSpec (s : GenomeSettings) (genome : List ℕ) (d : Draws) :
    List ℕ × Draws :=
  let mutated := mapRand (specFlipByte s.chanceMutateBit) genome d
  let kept := filterRand s.chanceDropByte mutated.1 mutated.2
  let repeated := specRepeatItems s.chanceRepeatByte kept.1 kept.2
  let shuffled := transposeItems s.chanceTransposeByte repeated.1 repeated.2
  let genes := chunkBy shuffled.1 findControlIndexes
  let keptGenes := filterRand s.chanceDropGene genes shuffled.2
  let repeatedGenes := specRepeatItems s.chanceRepeatGene keptGenes.1 keptGenes.2
  let shuffledGenes :=
    transposeItems s.chanceTransposeGene repeatedGenes.1 repeatedGenes.2
  (joinGeneArray shuffledGenes.1, shuffledGenes.2)

/-! ## Spikes (`app/meebas/spikes.js` and the later temperature-scaled
variant)

The lookup-table trigonometry of `utils/math.js` is consumed as the spec's
external trig primitives (§6) and passed in as an abstract bundle. -/

/-- The external trig primitives: sine and cosine over angles in turns, and
arcsine returning turns. -/
structure Trig (α : Type*) where
  sinT : α → α
  cosT : α → α
  asinT : α → α

/-- `SPIKE_WIDTH`: pixel width of a spike's base. -/
def SPIKE_WIDTH : ℚ := 6

/-- `HALF_WIDTH`: half the spike width. -/
def HALF_WIDTH : ℚ := SPIKE_WIDTH / 2

/-- `SPIKE_DRAIN`: the constant drain rate of the `app/meebas/spikes.js`
variant. -/
def SPIKE_DRAIN : ℚ := 320

/-- `getXOffset`: floored x-offset of a point at a given angle and
distance. -/
def getXOffset (t : Trig ℚ) (angle distance : ℚ) : ℚ :=
  mfloor (t.cosT angle * distance)

/-- `getYOffset`: floored (screen-)y-offset of a point at a given angle and
distance. -/
def getYOffset (t : Trig ℚ) (angle distance : ℚ) : ℚ :=
  mfloor (-(t.sinT angle) * distance)

/-- `spawnSpike` from `app/meebas/spikes.js`: base points offset
symmetrically by `asin(HALF_WIDTH / radius)`, tip at `length + radius`
along the angle, and the constant drain `SPIKE_DRAIN`. -/
def spawnSpike (t : Trig ℚ) (radius angle length : ℚ) : Spike :=
  let offsetAngle := t.asinT (HALF_WIDTH / radius)
  { fill := "black"
    length := length
    drain := SPIKE_DRAIN
    x1 := 0, y1 := 0, x2 := 0, y2 := 0, x3 := 0, y3 := 0
    offsetX1 := getXOffset t angle (length + radius)
    offsetY1 := getYOffset t angle (length + radius)
    offsetX2 := getXOffset t (angle - offsetAngle) (radius - 1)
    offsetY2 := getYOffset t (angle - offsetAngle) (radius - 1)
    offsetX3 := getXOffset t (angle + offsetAngle) (radius - 1)
    offsetY3 := getYOffset t (angle + offsetAngle) (radius - 1)
    deactivateTime := none }

/-- `getSpikeMover`: re-seat a spike's absolute points at the parent's
position plus the stored offsets. -/
def getSpikeMover (x y : ℚ) (spike : Spike) : Spike :=
  { spike with
    x1 := x + spike.offsetX1, y1 := y + spike.offsetY1
    x2 := x + spike.offsetX2, y2 := y + spike.offsetY2
    x3 := x + spike.offsetX3, y3 := y + spike.offsetY3 }

/-- `BASE_DRAIN` of the later `spawnSpike` variant:
`25000 * Math.max(0, settings.simulation.temperature) / 30`, linear in the
ambient temperature clamped at zero. -/
noncomputable def BASE_DRAIN (temperature : ℝ) : ℝ :=
  25000 * max 0 temperature / 30

/-- `DRAIN_LENGTH_QUOTIENT` of the later `spawnSpike` variant. -/
noncomputable def DRAIN_LENGTH_QUOTIENT : ℝ := 1.2

/-- A spike of the later `spawnSpike` variant, over `ℝ` (its drain rate
involves a fractional exponent). -/
structure ScaledSpike where
  fill : String
  length : ℝ
  drain : ℝ
  x1 : ℝ
  y1 : ℝ
  x2 : ℝ
  y2 : ℝ
  x3 : ℝ
  y3 : ℝ
  offsetX1 : ℝ
  offsetY1 : ℝ
  offsetX2 : ℝ
  offsetY2 : ℝ
  offsetX3 : ℝ
  offsetY3 : ℝ
  deactivateTime : Option ℝ

/-- `getXOffset` of the later variant, over `ℝ`. -/
noncomputable def getXOffsetR (t : Trig ℝ) (angle distance : ℝ) : ℝ :=
  ((⌊t.cosT angle * distance⌋ : ℤ) : ℝ)

/-- `getYOffset` of the later variant, over `ℝ`. -/
noncomputable def getYOffsetR (t : Trig ℝ) (angle distance : ℝ) : ℝ :=
  ((⌊-(t.sinT angle) * distance⌋ : ℤ) : ℝ)

/-- The later `spawnSpike` variant: same geometry as the constant-drain
variant, but the drain is `BASE_DRAIN / (length ** DRAIN_LENGTH_QUOTIENT)`
with the fractional `**` as real exponentiation. -/
noncomputable def spawnSpikeScaled (t : Trig ℝ) (temperature : ℝ)
    (radius angle length : ℝ) : ScaledSpike :=
  let offsetAngle := t.asinT ((3 : ℝ) / radius)
  { fill := "black"
    length := length
    drain := BASE_DRAIN temperature / length ^ DRAIN_LENGTH_QUOTIENT
    x1 := 0, y1 := 0, x2 := 0, y2 := 0, x3 := 0, y3 := 0
    offsetX1 := getXOffsetR t angle (length + radius)
    offsetY1 := getYOffsetR t angle (length + radius)
    offsetX2 := getXOffsetR t (angle - offsetAngle) (radius - 1)
    offsetY2 := getYOffsetR t (angle - offsetAngle) (radius - 1)
    offsetX3 := getXOffsetR t (angle + offsetAngle) (radius - 1)
    offsetY3 := getYOffsetR t (angle + offsetAngle) (radius - 1)
    deactivateTime := none }

/-! ## Body factory (`app/meebas/bodies.js`) -/

/-- Modelled from the spec: the hex codec of `utils/arrays.js` is absent
from the sources; per §6 `toHex`/`toBytes` round-trip exactly, so a hex
string is represented here by its byte sequence and both maps are the
identity. -/
def toHex (bytes : List ℕ) : List ℕ := bytes

/-- Modelled from the spec: inverse of `toHex`; see `toHex`. -/
def toBytes (hex : List ℕ) : List ℕ := hex

/-- Speed and direction of a body. -/
structure Velocity where
  angle : ℚ
  speed : ℚ
  deriving Repr, DecidableEq

/-- Simulation-scratch fields of a body.  The `lastCollisionBody`
back-reference is modelled as a nullable body identifier. -/
structure BodyMeta where
  nextX : ℚ
  nextY : ℚ
  lastCollisionBody : Option ℕ
  deriving Repr, DecidableEq

/-- A body to be simulated and drawn. -/
structure Body where
  dna : List ℕ
  fill : String
  x : ℚ
  y : ℚ
  mass : ℚ
  radius : ℚ
  velocity : Velocity
  vitals : Vitals
  spikes : List Spike
  meta : BodyMeta

/-- The configuration snapshot the body factory reads: the genome and
vitals settings, the external trig and color collaborators, and the
dynamically derived `minMass` (`ceil(π · minRadius²)`) and
`maxSpawningEnergy` values. -/
structure BodyConfig where
  genome : GenomeSettings
  vitals : VitalsSettings
  trig : Trig ℚ
  rgbToHue : ℕ → ℕ → ℕ → ℚ
  minMass : ℚ
  maxSpawningEnergy : ℚ

/-- Modelled from the spec: `toVector` of `utils/physics.js` is absent from
the sources; per §4.4 it projects a velocity onto x/y displacements using
the external trig primitives, with the screen-negative y convention the
in-source geometry helpers use. -/
def toVector (t : Trig ℚ) (v : Velocity) : ℚ × ℚ :=
  (t.cosT v.angle * v.speed, -(t.sinT v.angle) * v.speed)

/-- `initBody`: read the genome, derive mass and floored radius, spawn the
spikes sorted longest-first, and fill in default position, velocity and
vitals. -/
noncomputable def initBody (cfg : BodyConfig) (dna : List ℕ) : Body :=
  let dnaCommands := readGenome cfg.genome cfg.rgbToHue dna
  let mass := cfg.minMass + dnaCommands.size
  let radius : ℚ := ((⌊Real.sqrt ((mass : ℝ) / Real.pi)⌋ : ℤ) : ℚ)
  let spikes :=
    (dnaCommands.spikes.map (fun sc => spawnSpike cfg.trig radius sc.angle sc.length)).mergeSort
      (fun a b => decide (b.length ≤ a.length))
  { dna := toHex dna
    fill := "black"
    x := 0
    y := 0
    mass := mass
    radius := radius
    velocity := { angle := 0, speed := 0 }
    vitals := initVitals cfg.vitals mass spikes
    spikes := spikes
    meta := { nextX := 0, nextY := 0, lastCollisionBody := none } }

/-- `replicateParent`: mutate the parent's genome, build a child body from
it, inherit the fill, set the child's calories to half the parent's
(floored), place and launch it relative to the parent, and re-seat the
child's spikes.  The source never writes to the parent object, so the
updated parent returned alongside the child is the parent itself. -/
noncomputable def replicateParent (cfg : BodyConfig) (parent : Body)
    (angle : ℚ) (d : Draws) : Body × Body × Draws :=
  let dna := replicateGenome cfg.genome (toBytes parent.dna) d
  let body0 := initBody cfg dna.1
  let body1 := { body0 with fill := parent.fill }
  let body2 :=
    { body1 with
      vitals := setCalories body1.vitals (mfloor (parent.vitals.calories / 2)) }
  let relativeLocation :=
    toVector cfg.trig { angle := angle, speed := 2 * body2.radius }
  let body3 :=
    { body2 with
      x := parent.x + relativeLocation.1, y := parent.y + relativeLocation.2 }
  let bonus := randInt 0 (cfg.maxSpawningEnergy / body3.mass) dna.2
  let body4 :=
    { body3 with
      velocity := { angle := angle, speed := parent.velocity.speed + bonus.1 } }
  let body5 :=
    { body4 with spikes := body4.spikes.map (getSpikeMover body4.x body4.y) }
  (body5, parent, bonus.2)

/-! ## Legacy 2D math and elastic collision (earliest generation)

`breakVector`, `mergeVector` and `collide` use `Math.cos`, `Math.sin`,
`Math.atan` and `Math.sqrt` directly, so they are embedded over `ℝ`. -/

namespace OldMath

/-- `getRadians`: convert an angle from turns into radians. -/
noncomputable def getRadians (turns : ℝ) : ℝ := turns * Real.pi * 2

/-- `breakVector`: break an angle (turns) and magnitude into an x/y vector,
with the screen-negative y convention. -/
noncomputable def breakVector (angle magnitude : ℝ) : ℝ × ℝ :=
  (Real.cos (getRadians angle) * magnitude,
   -Real.sin (getRadians angle) * magnitude)

/-- `mergeVector`: combine an x/y vector back into an angle (turns) and a
speed, correcting the eastward-only arctangent by quadrant. -/
noncomputable def mergeVector (x y : ℝ) : ℝ × ℝ :=
  let angle0 := Real.arctan (-y / x) / (2 * Real.pi)
  let angle1 := if angle0 < 0 then angle0 + 1 else angle0
  let angle2 := if x < 0 ∧ y < 0 then angle1 - 1 / 2 else angle1
  let angle3 := if x < 0 ∧ 0 < y then angle2 + 1 / 2 else angle2
  (angle3, Real.sqrt (x * x + y * y))

/-- A body of the earliest generation, as `collide` uses it: its core size
(mass), position, and velocity as angle (turns) and speed. -/
structure OldBody where
  size : ℝ
  x : ℝ
  y : ℝ
  angle : ℝ
  speed : ℝ

/-- `collide`: resolve a two-body elastic collision — decompose both
velocities along the unit normal (center to center) and unit tangent,
exchange normal components by the standard two-body mass formula, keep the
tangential components, recompose, and store the merged angle/speed on both
bodies. -/
noncomputable def collide (body1 body2 : OldBody) : OldBody × OldBody :=
  let m1 := body1.size
  let m2 := body2.size
  let v1 := breakVector body1.angle body1.speed
  let v2 := breakVector body2.angle body2.speed
  let n : ℝ × ℝ := (body2.x - body1.x, body2.y - body1.y)
  let mn := Real.sqrt (n.1 * n.1 + n.2 * n.2)
  let un : ℝ × ℝ := (n.1 / mn, n.2 / mn)
  let ut : ℝ × ℝ := (-un.2, un.1)
  let vn1 := un.1 * v1.1 + un.2 * v1.2
  let vt1 := ut.1 * v1.1 + ut.2 * v1.2
  let vn2 := un.1 * v2.1 + un.2 * v2.2
  let vt2 := ut.1 * v2.1 + ut.2 * v2.2
  let vn1f := (vn1 * (m1 - m2) + 2 * m2 * vn2) / (m1 + m2)
  let vn2f := (vn2 * (m2 - m1) + 2 * m1 * vn1) / (m1 + m2)
  let v1f : ℝ × ℝ := (vn1f * un.1 + vt1 * ut.1, vn1f * un.2 + vt1 * ut.2)
  let v2f : ℝ × ℝ := (vn2f * un.1 + vt2 * ut.1, vn2f * un.2 + vt2 * ut.2)
  let merged1 := mergeVector v1f.1 v1f.2
  let merged2 := mergeVector v2f.1 v2f.2
  ({ body1 with angle := merged1.1, speed := merged1.2 },
   { body2 with angle := merged2.1, speed := merged2.2 })

end OldMath

/-- A concrete genome-settings snapshot used by the witnesses. -/
def sampleGenomeSettings : GenomeSettings :=
  { maxGeneCount := 4
    maxGeneSize := 2
    chanceMutateBit := 0
    chanceDropByte := 0
    chanceRepeatByte := 0
    chanceTransposeByte := 0
    chanceDropGene := 0
    chanceRepeatGene := 0
    chanceTransposeGene := 0
    percentSizeGenes := 1 / 2
    percentSpikeGenes := 1 / 8
    percentRedGenes := 1 / 8
    percentGreenGenes := 1 / 8
    percentBlueGenes := 1 / 8
    bitsPerMass := 2
    bitsPerSpikeLength := 2 }

/-! ## Theorems -/

/-- `rand()` in closed form: the head of the draw list (or the limit value
`1` when exhausted) and its tail. -/
theorem randDraw_eq (d : Draws) : randDraw d = (d.headD 1, d.tail) := by
  cases d <;> rfl

/-- C5: for every vitals record (in both deployed generations) and every
non-negative requested drain amount, `drainCalories` removes exactly
`min(amount, current calories)` from the calories — so the calories never
become negative — and returns the actually-removed amount. -/
theorem drainCalories_removes_min (v : Vitals) (lv : Legacy.Vitals)
    (amount : ℚ) (_h : 0 ≤ amount) :
    ((drainCalories v amount).2 = min amount v.calories ∧
      (drainCalories v amount).1.calories
        = v.calories - min amount v.calories ∧
      0 ≤ (drainCalories v amount).1.calories) ∧
    ((Legacy.drainCalories lv amount).2 = min amount lv.calories ∧
      (Legacy.drainCalories lv amount).1.calories
        = lv.calories - min amount lv.calories ∧
      0 ≤ (Legacy.drainCalories lv amount).1.calories) := by
  constructor
  · rcases le_or_lt v.calories amount with hc | hc
    · simp only [drainCalories, gt_iff_lt, if_neg (not_lt.mpr hc),
        min_eq_right hc]
      refine ⟨by trivial, by trivial, by simp⟩
    · simp only [drainCalories, gt_iff_lt, if_pos hc, min_eq_left hc.le]
      refine ⟨by trivial, by trivial, by linarith⟩
  · rcases le_or_lt lv.calories amount with hc | hc
    · simp only [Legacy.drainCalories, gt_iff_lt, if_neg (not_lt.mpr hc),
        min_eq_right hc]
      norm_num
    · have hpos : (0 : ℚ) < lv.calories - amount := sub_pos.mpr hc
      simp only [Legacy.drainCalories, gt_iff_lt, if_pos hc, if_pos hpos,
        min_eq_left hc.le]
      refine ⟨by trivial, by trivial, by linarith⟩

/-- Witness for C5 at a concrete vitals record and drain amount. -/
theorem drainCalories_removes_min_witness :
    (0 : ℚ) ≤ 60 ∧
    (((drainCalories ⟨100, 0, 50, 200, false⟩ 60).2 = min 60 100 ∧
      (drainCalories ⟨100, 0, 50, 200, false⟩ 60).1.calories
        = 100 - min 60 100 ∧
      0 ≤ (drainCalories ⟨100, 0, 50, 200, false⟩ 60).1.calories) ∧
    ((Legacy.drainCalories ⟨100, 50, 200, false⟩ 60).2 = min 60 100 ∧
      (Legacy.drainCalories ⟨100, 50, 200, false⟩ 60).1.calories
        = 100 - min 60 100 ∧
      0 ≤ (Legacy.drainCalories ⟨100, 50, 200, false⟩ 60).1.calories)) :=
  ⟨by norm_num,
    drainCalories_removes_min ⟨100, 0, 50, 200, false⟩ ⟨100, 50, 200, false⟩
      60 (by norm_num)⟩

/-- C1 counterexample: the current-generation `drainCalories` updates the
calories without recomputing `isDead`, so draining a live meeba below its
death threshold leaves `isDead` false. -/
theorem drainCalories_stale_isDead :
    ¬ ((drainCalories ⟨100, 0, 50, 200, false⟩ 60).1.isDead
        ↔ (drainCalories ⟨100, 0, 50, 200, false⟩ 60).1.calories
            < (drainCalories ⟨100, 0, 50, 200, false⟩ 60).1.diesAt) := by
  have e : (drainCalories ⟨100, 0, 50, 200, false⟩ 60).1
      = ⟨40, 0, 50, 200, false⟩ := by
    simp only [drainCalories]
    norm_num
  rw [e]
  norm_num

/-- C1 (amended): `initVitals` establishes `isDead == (calories < diesAt)`
at construction, and `setCalories` (both generations) and the
earlier-generation `drainCalories` re-establish it on every calorie change;
the current-generation `drainCalories` changes the calories while leaving
`isDead` untouched. -/
theorem vitals_isDead_invariant (s : VitalsSettings) (mass : ℚ)
    (spikes : List Spike) (v : Vitals) (lv : Legacy.Vitals) (c drain : ℚ) :
    ((initVitals s mass spikes).isDead
        ↔ (initVitals s mass spikes).calories
            < (initVitals s mass spikes).diesAt) ∧
    ((setCalories v c).isDead
        ↔ (setCalories v c).calories < (setCalories v c).diesAt) ∧
    ((Legacy.setCalories lv c).isDead
        ↔ (Legacy.setCalories lv c).calories
            < (Legacy.setCalories lv c).diesAt) ∧
    ((Legacy.drainCalories lv drain).1.isDead
        ↔ (Legacy.drainCalories lv drain).1.calories
            < (Legacy.drainCalories lv drain).1.diesAt) ∧
    ((Legacy.initVitals mass).isDead
        ↔ (Legacy.initVitals mass).calories
            < (Legacy.initVitals mass).diesAt) ∧
    (drainCalories v drain).1.isDead = v.isDead := by
  refine ⟨?_, ?_, ?_, ?_, ?_, ?_⟩ <;>
    simp [initVitals, setCalories, Legacy.setCalories, Legacy.drainCalories,
      Legacy.initVitals, drainCalories]

/-- C4: `replicateParent` gives the child exactly half the parent's
calories (floored), and performs no write to the parent — in particular the
parent's vitals are returned unchanged. -/
theorem replicateParent_halves_calories (cfg : BodyConfig) (parent : Body)
    (angle : ℚ) (d : Draws) :
    (replicateParent cfg parent angle d).1.vitals.calories
        = mfloor (parent.vitals.calories / 2) ∧
    (replicateParent cfg parent angle d).2.1.vitals = parent.vitals ∧
    (replicateParent cfg parent angle d).2.1 = parent := by
  refine ⟨?_, rfl, rfl⟩
  simp [replicateParent, setCalories]

/-- C9: a genome without a single control byte parses to an empty gene
list, and reads to a size of zero, no spikes, and all-zero color bit
censuses. -/
theorem readGenome_no_control_bytes (s : GenomeSettings)
    (rgbToHue : ℕ → ℕ → ℕ → ℚ) (genome : List ℕ)
    (h : ∀ b ∈ genome, b < 0xF0) :
    toGenes genome = [] ∧
    (readGenome s rgbToHue genome).size = 0 ∧
    (readGenome s rgbToHue genome).spikes = [] ∧
    countTypeBits 0xF0 (toGenes genome) = 0 ∧
    countTypeBits 0xF2 (toGenes genome) = 0 ∧
    countTypeBits 0xF3 (toGenes genome) = 0 ∧
    countTypeBits 0xF4 (toGenes genome) = 0 := by
  have hidx : findControlIndexes genome = [] := by
    rw [findControlIndexes, List.map_eq_nil_iff, List.filter_eq_nil_iff]
    intro ib hib
    have hmem : ib.2 ∈ genome := by
      obtain ⟨hi, hv⟩ := List.getElem?_eq_some.mp
        (List.mem_enum_iff_getElem?.mp hib)
      exact hv ▸ List.getElem_mem hi
    simp only [decide_eq_true_eq, not_le]
    exact h _ hmem
  have hgenes : toGenes genome = [] := by
    simp [toGenes, hidx]
  refine ⟨hgenes, ?_, ?_, ?_, ?_, ?_, ?_⟩ <;>
    simp [readGenome, hgenes, countTypeBits, mfloor]

/-- C3 counterexample: with the base-36 seed string `"c8gmgn"` (digit
values below, parsing to 739806647) the very first `rand()` call returns
exactly `1`, outside the claimed half-open interval. -/
theorem prng_returns_one :
    prngOutput (parseBase36 [12, 8, 16, 22, 16, 23]) 0 = 1 ∧
    ¬ prngOutput (parseBase36 [12, 8, 16, 22, 16, 23]) 0 < 1 := by
  have h : prngOutput (parseBase36 [12, 8, 16, 22, 16, 23]) 0 = 1 := by
    norm_num [prngOutput, prngState, prngStep, parseBase36]
  exact ⟨h, by rw [h]; exact lt_irrefl 1⟩

/-- C3 (amended): every `rand()` call advances the state by
`seed = seed * 16807 % 2147483647` and outputs `seed / 2147483646`; the
outputs lie in the closed interval `[0, 1]`, reaching `1` exactly when the
updated state is `2147483646`. -/
theorem prng_recurrence_and_range (digits : List ℕ) (n : ℕ) :
    prngState (parseBase36 digits) (n + 1)
        = prngState (parseBase36 digits) n * 16807 % 2147483647 ∧
    prngOutput (parseBase36 digits) n
        = (prngState (parseBase36 digits) (n + 1) : ℚ) / 2147483646 ∧
    0 ≤ prngOutput (parseBase36 digits) n ∧
    prngOutput (parseBase36 digits) n ≤ 1 ∧
    (prngOutput (parseBase36 digits) n = 1
        ↔ prngState (parseBase36 digits) (n + 1) = 2147483646) := by
  have hstep : prngState (parseBase36 digits) (n + 1)
      = prngStep (prngState (parseBase36 digits) n) :=
    Function.iterate_succ_apply' prngStep n (parseBase36 digits)
  have hlt : prngState (parseBase36 digits) (n + 1) ≤ 2147483646 := by
    rw [hstep, prngStep]
    exact Nat.le_of_lt_succ (Nat.mod_lt _ (by norm_num))
  refine ⟨by rw [hstep]; rfl, rfl, ?_, ?_, ?_⟩
  · exact div_nonneg (by positivity) (by norm_num)
  · rw [prngOutput, div_le_one (by norm_num)]
    exact_mod_cast hlt
  · rw [prngOutput, div_eq_one_iff_eq (by norm_num)]
    norm_cast

/-- The kept and pulled-out halves of the transpose split together form a
permutation of the input. -/
theorem transposeSplit_perm {α : Type*} (chance : ℚ) (l : List α) (d : Draws) :
    ((transposeSplit chance l d).1.1 ++ (transposeSplit chance l d).1.2).Perm
      l := by
  induction l generalizing d with
  | nil => simp [transposeSplit]
  | cons x xs ih =>
    by_cases hr : (randDraw d).1 < chance
    · simp only [transposeSplit, if_pos hr]
      exact List.perm_middle.trans ((ih _).cons x)
    · simp only [transposeSplit, if_neg hr, List.cons_append]
      exact (ih _).cons x

/-- Splicing an item into a list permutes consing it on. -/
theorem spliceInsert_perm {α : Type*} (l : List α) (pos : ℕ) (x : α) :
    (spliceInsert l pos x).Perm (x :: l) := by
  have h := @List.perm_middle _ x (l.take pos) (l.drop pos)
  rw [List.take_append_drop] at h
  exact h

/-- Splicing a list of items one by one at arbitrary positions permutes
appending them. -/
theorem insertMoved_perm {α : Type*} (moved : List α) :
    ∀ (acc : List α) (d : Draws),
      (insertMoved acc moved d).1.Perm (acc ++ moved) := by
  induction moved with
  | nil => intro acc d; simp [insertMoved]
  | cons x xs ih =>
    intro acc d
    simp only [insertMoved]
    refine (ih _ _).trans ?_
    refine ((spliceInsert_perm acc _ x).append_right xs).trans ?_
    rw [List.cons_append]
    exact List.perm_middle.symm

/-- C10: `transposeItems` returns a permutation of its input — the same
elements with the same multiplicities, possibly reordered — so the
byte-level and gene-level transpose stages of `replicateGenome` only
relocate entries. -/
theorem transposeItems_perm {α : Type*} (chance : ℚ) (l : List α)
    (d : Draws) :
    ((transposeItems chance l d).1).Perm l := by
  simp only [transposeItems]
  exact (insertMoved_perm _ _ _).trans (transposeSplit_perm chance l d)

/-- Starting the single-bit flips from `b XOR m` factors the byte out of
the accumulated mask. -/
theorem flipBitsFrom_xor (chance : ℚ) (ks : List ℕ) (b m : ℕ) (d : Draws) :
    flipBitsFrom chance ks (b ^^^ m) d
      = (b ^^^ (flipBitsFrom chance ks m d).1,
          (flipBitsFrom chance ks m d).2) := by
  induction ks generalizing m d with
  | nil => simp [flipBitsFrom]
  | cons k ks ih =>
    simp only [flipBitsFrom]
    by_cases hr : (randDraw d).1 < chance
    · simp only [if_pos hr, Nat.xor_assoc]
      exact ih _ _
    · simp only [if_neg hr]
      exact ih _ _

/-- One step of the single-bit flips, with the accumulated mask factored
out of the recursion. -/
theorem flipBitsFrom_cons (chance : ℚ) (k : ℕ) (ks : List ℕ) (b : ℕ)
    (d : Draws) :
    flipBitsFrom chance (k :: ks) b d
      = ((b ^^^ if (randDraw d).1 < chance then 2 ^ k else 0)
            ^^^ (flipBitsFrom chance ks 0 (randDraw d).2).1,
          (flipBitsFrom chance ks 0 (randDraw d).2).2) := by
  have h : (if (randDraw d).1 < chance then b ^^^ 2 ^ k else b)
      = (b ^^^ if (randDraw d).1 < chance then 2 ^ k else 0) ^^^ 0 := by
    split_ifs <;> simp
  rw [flipBitsFrom, h, flipBitsFrom_xor]

/-- Base case of the single-bit flips. -/
theorem flipBitsFrom_nil (chance : ℚ) (b : ℕ) (d : Draws) :
    flipBitsFrom chance [] b d = (b, d) := rfl

/-- The mask accumulated by the spec-worded single-bit flips equals the
parsed binary mask of `mutateBits`. -/
theorem flipBitsFrom_mask_fst (chance : ℚ) (d : Draws) :
    (flipBitsFrom chance [7, 6, 5, 4, 3, 2, 1, 0] 0 d).1
      = (mutateBits chance 0 d).1 := by
  simp only [mutateBits, drawList, List.map, List.foldl,
    flipBitsFrom_cons, flipBitsFrom_nil]
  split_ifs <;> decide

/-- The single-bit flips consume the same eight rolls as `mutateBits`. -/
theorem flipBitsFrom_mask_snd (chance : ℚ) (d : Draws) :
    (flipBitsFrom chance [7, 6, 5, 4, 3, 2, 1, 0] 0 d).2
      = (mutateBits chance 0 d).2 := rfl

/-- The mask-and-rolls bridge between the two mutation phrasings. -/
theorem flipBitsFrom_mask (chance : ℚ) (d : Draws) :
    flipBitsFrom chance [7, 6, 5, 4, 3, 2, 1, 0] 0 d
      = mutateBits chance 0 d :=
  Prod.ext (flipBitsFrom_mask_fst chance d) (flipBitsFrom_mask_snd chance d)

/-- The spec-worded independent per-bit flips compute exactly the source's
`mutateBits`. -/
theorem specFlipByte_eq_mutateBits (chance : ℚ) (byte : ℕ) (d : Draws) :
    specFlipByte chance byte d = mutateBits chance byte d := by
  have h : flipBitsFrom chance [7, 6, 5, 4, 3, 2, 1, 0] (byte ^^^ 0) d
      = (byte ^^^ (flipBitsFrom chance [7, 6, 5, 4, 3, 2, 1, 0] 0 d).1,
          (flipBitsFrom chance [7, 6, 5, 4, 3, 2, 1, 0] 0 d).2) :=
    flipBitsFrom_xor chance _ byte 0 d
  rw [Nat.xor_zero] at h
  rw [specFlipByte, h, flipBitsFrom_mask]
  simp [mutateBits, Nat.zero_xor]

/-- `mapRand` only depends on the pointwise behavior of its stateful
function. -/
theorem mapRand_congr {α β : Type*} {f g : α → Draws → β × Draws}
    (h : ∀ a d, f a d = g a d) :
    ∀ (l : List α) (d : Draws), mapRand f l d = mapRand g l d := by
  intro l
  induction l with
  | nil => intro d; rfl
  | cons x xs ih =>
    intro d
    simp only [mapRand, h x d, ih]

/-- On an exhausted draw list the loop-style repeat and the geometric
repeat agree. -/
theorem specRepeatItems_nil_draws {α : Type*} (chance : ℚ) (l : List α) :
    specRepeatItems chance l [] = repeatItems chance l [] := by
  induction l with
  | nil => simp [specRepeatItems, repeatItems]
  | cons x xs ih =>
    simp only [specRepeatItems, countRepeats, repeatItems, ih,
      List.replicate_succ, List.replicate_zero, List.nil_append,
      List.cons_append]

/-- The spec-worded geometric repeat computes exactly the source's
loop-with-stepped-back-index `repeatItems`. -/
theorem specRepeatItems_eq_repeatItems {α : Type*} (chance : ℚ)
    (l : List α) (d : Draws) :
    specRepeatItems chance l d = repeatItems chance l d := by
  induction d generalizing l with
  | nil => exact specRepeatItems_nil_draws chance l
  | cons r rest ih =>
    cases l with
    | nil => simp [specRepeatItems, repeatItems]
    | cons x xs =>
      by_cases hr : r < chance
      · have e1 : specRepeatItems chance (x :: xs) (r :: rest)
            = (x :: (specRepeatItems chance (x :: xs) rest).1,
                (specRepeatItems chance (x :: xs) rest).2) := by
          simp only [specRepeatItems, countRepeats, if_pos hr,
            List.replicate_succ, List.cons_append]
        rw [e1, ih (x :: xs)]
        simp only [repeatItems, if_pos hr]
      · have e1 : specRepeatItems chance (x :: xs) (r :: rest)
            = (x :: (specRepeatItems chance xs rest).1,
                (specRepeatItems chance xs rest).2) := by
          simp only [specRepeatItems, countRepeats, if_neg hr,
            List.replicate_succ, List.replicate_zero, List.nil_append,
            List.cons_append]
        rw [e1, ih xs]
        simp only [repeatItems, if_neg hr]

/-- C2: `replicateGenome` is exactly the ordered pipeline the spec
describes — independent per-bit mutation, then byte drop, geometric byte
repeat and byte transpose, then re-segmentation into genes at control
bytes, gene drop, geometric gene repeat and gene transpose with their own
rates, and final re-concatenation. -/
theorem replicateGenome_pipeline (s : GenomeSettings) (genome : List ℕ)
    (d : Draws) :
    replicateGenome s genome d = replicateGenomeSpec s genome d := by
  have h1 : mapRand (specFlipByte s.chanceMutateBit) genome d
      = mapRand (mutateBits s.chanceMutateBit) genome d :=
    mapRand_congr (specFlipByte_eq_mutateBits s.chanceMutateBit) genome d
  simp only [replicateGenome, replicateGenomeSpec, h1,
    specRepeatItems_eq_repeatItems]

/-- The front draw lies in `[0, 1]` when the list does (an exhausted list
yields `1`), and the remaining draws stay in the unit interval. -/
theorem randDraw_unit {d : Draws} (h : DrawsInUnit d) :
    ((0 ≤ (randDraw d).1 ∧ (randDraw d).1 ≤ 1)
      ∧ DrawsInUnit (randDraw d).2) := by
  cases d with
  | nil =>
    exact ⟨⟨zero_le_one, le_refl 1⟩, fun r hr => absurd hr (List.not_mem_nil r)⟩
  | cons r rest =>
    exact ⟨h r (List.mem_cons_self r rest),
      fun x hx => h x (List.mem_cons_of_mem r hx)⟩

/-- `randInt(1, M)` over unit draws lies between `1` and `M`. -/
theorem randInt_bounds {M : ℚ} (hM : 1 ≤ M) {d : Draws} (h : DrawsInUnit d) :
    1 ≤ (randInt 1 M d).1 ∧ (randInt 1 M d).1 ≤ M := by
  obtain ⟨⟨hr0, hr1⟩, -⟩ := randDraw_unit h
  have hM1 : (0 : ℚ) ≤ M - 1 := by linarith
  have hprod0 : (0 : ℚ) ≤ (randDraw d).1 * (M - 1) := mul_nonneg hr0 hM1
  have hprod1 : (randDraw d).1 * (M - 1) ≤ M - 1 :=
    mul_le_of_le_one_left hM1 hr1
  have hf0 : (0 : ℚ) ≤ mfloor ((randDraw d).1 * (M - 1)) := by
    rw [mfloor]
    exact_mod_cast Int.le_floor.mpr (by exact_mod_cast hprod0)
  have hf1 : mfloor ((randDraw d).1 * (M - 1)) ≤ M - 1 :=
    le_trans (by rw [mfloor]; exact Int.floor_le _) hprod1
  simp only [randInt]
  constructor <;> linarith

/-- `randInt` only consumes its single roll. -/
theorem randInt_snd_unit {a b : ℚ} {d : Draws} (h : DrawsInUnit d) :
    DrawsInUnit (randInt a b d).2 := (randDraw_unit h).2

/-- The length of `range q` sits between `1` and any `M` bounding `q`. -/
theorem range_length_bounds {q M : ℚ} (h1 : 1 ≤ q) (h2 : q ≤ M) :
    1 ≤ (range q).length ∧ ((range q).length : ℚ) ≤ M := by
  have hfl : (1 : ℤ) ≤ ⌊q⌋ := Int.le_floor.mpr (by exact_mod_cast h1)
  have hlen : (range q).length = ⌊q⌋.toNat := by simp [range]
  constructor
  · rw [hlen]; omega
  · rw [hlen]
    have h0 : (0 : ℤ) ≤ ⌊q⌋ := by omega
    have hcast : ((⌊q⌋.toNat : ℕ) : ℚ) = ((⌊q⌋ : ℤ) : ℚ) := by
      exact_mod_cast congrArg (fun z : ℤ => (z : ℚ)) (Int.toNat_of_nonneg h0)
    rw [hcast]
    exact le_trans (Int.floor_le q) h2

/-- A `drawList` always yields as many items as requested. -/
theorem drawList_length {α : Type*} (gen : Draws → α × Draws) :
    ∀ (n : ℕ) (d : Draws), (drawList gen n d).1.length = n := by
  intro n
  induction n with
  | zero => intro d; rfl
  | succ k ih => intro d; simp [drawList, ih]

/-- A `drawList` of a unit-preserving generator leaves a unit draw list. -/
theorem drawList_unit {α : Type*} {gen : Draws → α × Draws}
    (hgen : ∀ d, DrawsInUnit d → DrawsInUnit (gen d).2) :
    ∀ (n : ℕ) {d : Draws}, DrawsInUnit d →
      DrawsInUnit (drawList gen n d).2 := by
  intro n
  induction n with
  | zero => intro d h; exact h
  | succ k ih => intro d h; exact ih (hgen d h)

/-- `randControlByte` only consumes its single roll. -/
theorem randControlByte_snd (s : GenomeSettings) (d : Draws) :
    (randControlByte s d).2 = (randDraw d).2 := by
  simp only [randControlByte]
  split <;> rfl

/-- `randControlByte` always yields one of the five configured control
bytes, all of which are bytes at or above `0xF0`. -/
theorem randControlByte_range (s : GenomeSettings) (d : Draws) :
    0xF0 ≤ (randControlByte s d).1 ∧ (randControlByte s d).1 < 256 := by
  have hmap : (controlByteRolls s).map Prod.fst
      = [0xF0, 0xF1, 0xF2, 0xF3, 0xF4] := rfl
  simp only [randControlByte]
  split
  case _ br heq =>
    have hbr : br ∈ controlByteRolls s := List.mem_of_find?_eq_some heq
    have hfst : br.1 ∈ (controlByteRolls s).map Prod.fst :=
      List.mem_map_of_mem Prod.fst hbr
    rw [hmap] at hfst
    simp only [List.mem_cons, List.not_mem_nil, or_false] at hfst
    rcases hfst with h | h | h | h | h <;> omega
  case _ =>
    norm_num [controlByteRolls, cumulativeRolls, controlBytesTable]

/-- Casting a byte-sized value through the `Uint8Array` coercion is the
identity. -/
theorem toUint8_byte {c : ℕ} (h : c < 256) : toUint8 (c : ℚ) = c := by
  rw [toUint8, Int.floor_natCast,
    Int.emod_eq_of_lt (Int.natCast_nonneg c) (by exact_mod_cast h)]
  exact Int.toNat_natCast c

/-- `randGene` over unit draws produces one control byte followed by
between `1` and `maxGeneSize` body bytes, and leaves a unit draw list. -/
theorem randGene_spec (s : GenomeSettings) (hs : 1 ≤ s.maxGeneSize)
    {d : Draws} (hd : DrawsInUnit d) :
    (∃ (c : ℕ) (body : List ℚ), (randGene s d).1 = (c : ℚ) :: body ∧
      0xF0 ≤ c ∧ c < 256 ∧
      1 ≤ body.length ∧ (body.length : ℚ) ≤ s.maxGeneSize) ∧
    DrawsInUnit (randGene s d).2 := by
  obtain ⟨h1, h2⟩ := randInt_bounds hs hd
  obtain ⟨hL1, hL2⟩ := range_length_bounds h1 h2
  have hdu1 : DrawsInUnit (randInt 1 s.maxGeneSize d).2 := randInt_snd_unit hd
  have hdu2 : DrawsInUnit
      (drawList (fun d => randInt 0 256 d)
        (range (randInt 1 s.maxGeneSize d).1).length
        (randInt 1 s.maxGeneSize d).2).2 :=
    drawList_unit (fun d h => randInt_snd_unit h) _ hdu1
  have hdu3 : DrawsInUnit (randGene s d).2 := by
    simp only [randGene]
    rw [randControlByte_snd]
    exact (randDraw_unit hdu2).2
  obtain ⟨hc1, hc2⟩ := randControlByte_range s
    (drawList (fun d => randInt 0 256 d)
      (range (randInt 1 s.maxGeneSize d).1).length
      (randInt 1 s.maxGeneSize d).2).2
  refine ⟨⟨_, _, rfl, hc1, hc2, ?_, ?_⟩, hdu3⟩
  · rw [drawList_length]; exact hL1
  · rw [drawList_length]; exact hL2

/-- Every gene drawn in a batch has the control-byte-plus-body shape. -/
theorem drawList_randGene_spec (s : GenomeSettings) (hs : 1 ≤ s.maxGeneSize) :
    ∀ (n : ℕ) {d : Draws}, DrawsInUnit d →
      ∀ g ∈ (drawList (randGene s) n d).1,
        ∃ (c : ℕ) (body : List ℚ), g = (c : ℚ) :: body ∧
          0xF0 ≤ c ∧ c < 256 ∧
          1 ≤ body.length ∧ (body.length : ℚ) ≤ s.maxGeneSize := by
  intro n
  induction n with
  | zero => intro d _ g hg; simp [drawList] at hg
  | succ k ih =>
    intro d hd g hg
    simp only [drawList, List.mem_cons] at hg
    rcases hg with hg | hg
    · obtain ⟨hstruct, -⟩ := randGene_spec s hs hd
      exact hg ▸ hstruct
    · exact ih (randGene_spec s hs hd).2 g hg

/-- C8: every genome `createGenome` produces over unit draws is a
concatenation, in generation order, of between `1` and `maxGeneCount`
genes, each consisting of one control byte (`≥ 0xF0`) followed by between
`1` and `maxGeneSize` body bytes. -/
theorem createGenome_gene_structure (s : GenomeSettings) (d : Draws)
    (hd : DrawsInUnit d) (hc : 1 ≤ s.maxGeneCount) (hs : 1 ≤ s.maxGeneSize) :
    ∃ genes : List (List ℕ),
      (createGenome s d).1 = genes.flatten ∧
      1 ≤ genes.length ∧ (genes.length : ℚ) ≤ s.maxGeneCount ∧
      ∀ g ∈ genes, ∃ (c : ℕ) (body : List ℕ), g = c :: body ∧
        0xF0 ≤ c ∧ c < 256 ∧
        1 ≤ body.length ∧ (body.length : ℚ) ≤ s.maxGeneSize := by
  obtain ⟨h1, h2⟩ := randInt_bounds hc hd
  obtain ⟨hL1, hL2⟩ := range_length_bounds h1 h2
  have hdu1 : DrawsInUnit (randInt 1 s.maxGeneCount d).2 := randInt_snd_unit hd
  refine ⟨((drawList (randGene s)
      (range (randInt 1 s.maxGeneCount d).1).length
      (randInt 1 s.maxGeneCount d).2).1).map (List.map toUint8),
    ?_, ?_, ?_, ?_⟩
  · simp only [createGenome]
    exact List.map_flatten toUint8 _
  · rw [List.length_map, drawList_length]; exact hL1
  · rw [List.length_map, drawList_length]; exact hL2
  · intro g hg
    obtain ⟨g0, hg0mem, hg0⟩ := List.mem_map.mp hg
    obtain ⟨c, body, hshape, hc0, hc256, hb1, hb2⟩ :=
      drawList_randGene_spec s hs _ hdu1 g0 hg0mem
    refine ⟨c, body.map toUint8, ?_, hc0, hc256, ?_, ?_⟩
    · rw [← hg0, hshape]
      simp [toUint8_byte hc256]
    · rw [List.length_map]; exact hb1
    · rw [List.length_map]; exact_mod_cast hb2

/-- C6 (amended): the later, temperature-scaled `spawnSpike` variant sets
the drain rate to `baseDrain / length ^ 1.2` with
`baseDrain = 25000 · max(0, temperature) / 30`, so at a positive ambient
temperature a shorter spike drains strictly more calories per second than a
longer one. -/
theorem spawnSpikeScaled_drain (t : Trig ℝ)
    (temperature radius angle l1 l2 : ℝ)
    (h1 : 0 < l1) (h12 : l1 < l2) (ht : 0 < temperature) :
    (spawnSpikeScaled t temperature radius angle l1).drain
        = 25000 * max 0 temperature / 30 / l1 ^ (1.2 : ℝ) ∧
    (spawnSpikeScaled t temperature radius angle l2).drain
        < (spawnSpikeScaled t temperature radius angle l1).drain := by
  have hbase : 0 < BASE_DRAIN temperature := by
    rw [BASE_DRAIN, max_eq_right ht.le]
    positivity
  have hp1 : (0 : ℝ) < l1 ^ (1.2 : ℝ) := Real.rpow_pos_of_pos h1 _
  have hlt : l1 ^ (1.2 : ℝ) < l2 ^ (1.2 : ℝ) :=
    Real.rpow_lt_rpow h1.le h12 (by norm_num)
  exact ⟨rfl, div_lt_div_of_pos_left hbase hp1 hlt⟩

/-- Witness for C6 at spike lengths 1 and 2 and the configured temperature
of 30. -/
theorem spawnSpikeScaled_drain_witness :
    (0 : ℝ) < 1 ∧ (1 : ℝ) < 2 ∧ (0 : ℝ) < 30 ∧
    ((spawnSpikeScaled ⟨id, id, id⟩ 30 10 0 1).drain
        = 25000 * max 0 30 / 30 / (1 : ℝ) ^ (1.2 : ℝ) ∧
      (spawnSpikeScaled ⟨id, id, id⟩ 30 10 0 2).drain
        < (spawnSpikeScaled ⟨id, id, id⟩ 30 10 0 1).drain) :=
  ⟨by norm_num, by norm_num, by norm_num,
    spawnSpikeScaled_drain ⟨id, id, id⟩ 30 10 0 1 2 (by norm_num)
      (by norm_num) (by norm_num)⟩

/-- C6 counterexample: the `spawnSpike` of `app/meebas/spikes.js` sets the
constant drain `320` for every spike, which is not the claimed
temperature-and-length formula — at the configured temperature `30` and
length `5` the formula gives at least `1000`. -/
theorem spawnSpike_constant_drain :
    (spawnSpike ⟨id, id, id⟩ 10 0 5).drain = 320 ∧
    (spawnSpikeScaled ⟨id, id, id⟩ 30 10 0 5).drain ≠ 320 := by
  refine ⟨rfl, ?_⟩
  have h1 : (5 : ℝ) ^ (1.2 : ℝ) ≤ 25 := by
    have h := Real.rpow_le_rpow_of_exponent_le
      (by norm_num : (1 : ℝ) ≤ 5) (by norm_num : (1.2 : ℝ) ≤ 2)
    rwa [show (5 : ℝ) ^ (2 : ℝ) = 25 by
      rw [show (2 : ℝ) = ((2 : ℕ) : ℝ) by norm_num, Real.rpow_natCast]
      norm_num] at h
  have h2 : (0 : ℝ) < (5 : ℝ) ^ (1.2 : ℝ) :=
    Real.rpow_pos_of_pos (by norm_num) _
  have h3 : (1000 : ℝ) ≤ 25000 / (5 : ℝ) ^ (1.2 : ℝ) := by
    rw [le_div_iff₀ h2]
    nlinarith
  have e : (spawnSpikeScaled ⟨id, id, id⟩ 30 10 0 5).drain
      = 25000 / (5 : ℝ) ^ (1.2 : ℝ) := by
    show BASE_DRAIN 30 / (5 : ℝ) ^ DRAIN_LENGTH_QUOTIENT
        = 25000 / (5 : ℝ) ^ (1.2 : ℝ)
    rw [BASE_DRAIN, DRAIN_LENGTH_QUOTIENT]
    norm_num
  rw [e]
  intro hcontra
  rw [hcontra] at h3
  norm_num at h3

/-- `mergeVector` on a due-east vector: angle 0, magnitude recovered. -/
theorem mergeVector_east (s : ℝ) (hs : 0 < s) :
    OldMath.mergeVector s 0 = (0, s) := by
  simp only [OldMath.mergeVector]
  rw [neg_zero, zero_div, Real.arctan_zero, zero_div]
  rw [if_neg (lt_irrefl 0)]
  rw [if_neg (by intro hc; exact absurd hc.2 (lt_irrefl 0))]
  rw [if_neg (by intro hc; exact absurd hc.2 (lt_irrefl 0))]
  rw [mul_zero, add_zero, Real.sqrt_mul_self hs.le]

/-- `mergeVector` on a due-west vector: the eastward arctangent is never
corrected (both quadrant fixes require a nonzero y), so the angle comes out
as 0 instead of 1/2. -/
theorem mergeVector_west (s : ℝ) (hs : 0 < s) :
    OldMath.mergeVector (-s) 0 = (0, s) := by
  simp only [OldMath.mergeVector]
  rw [neg_zero, zero_div, Real.arctan_zero, zero_div]
  rw [if_neg (lt_irrefl 0)]
  rw [if_neg (by intro hc; exact absurd hc.2 (lt_irrefl 0))]
  rw [if_neg (by intro hc; exact absurd hc.2 (lt_irrefl 0))]
  rw [neg_mul_neg, mul_zero, add_zero, Real.sqrt_mul_self hs.le]

/-- `breakVector` of the eastward test velocity. -/
theorem breakVector_east : OldMath.breakVector 0 10 = (10, 0) := by
  simp [OldMath.breakVector, OldMath.getRadians]

/-- `breakVector` of the westward test velocity. -/
theorem breakVector_west : OldMath.breakVector (1 / 2) 10 = (-10, 0) := by
  have harg : OldMath.getRadians (1 / 2) = Real.pi := by
    rw [OldMath.getRadians]; ring
  rw [OldMath.breakVector, harg, Real.cos_pi, Real.sin_pi]
  norm_num

/-- C7 at the repository's own head-on test scenario: two equal-mass
(314) bodies at (35, 50) and (65, 50), closing at speed 10 on angles 0 and
1/2.  The legacy `collide` leaves body 1 with angle 0 — its velocity
unchanged — instead of the exchanged angle 1/2, because `mergeVector`
returns 0 for a due-west result vector; body 2 and both speeds do swap as
the claim states. -/
theorem collide_headon_no_swap :
    OldMath.collide ⟨314, 35, 50, 0, 10⟩ ⟨314, 65, 50, 1 / 2, 10⟩
        = (⟨314, 35, 50, 0, 10⟩, ⟨314, 65, 50, 0, 10⟩) ∧
    (OldMath.collide ⟨314, 35, 50, 0, 10⟩ ⟨314, 65, 50, 1 / 2, 10⟩).1.angle
        ≠ 1 / 2 := by
  have hmn : Real.sqrt (((65 : ℝ) - 35) * ((65 : ℝ) - 35)
      + ((50 : ℝ) - 50) * ((50 : ℝ) - 50)) = 30 := by
    rw [show ((65 : ℝ) - 35) * ((65 : ℝ) - 35)
        + ((50 : ℝ) - 50) * ((50 : ℝ) - 50) = 30 * 30 by norm_num,
      Real.sqrt_mul_self (by norm_num : (0 : ℝ) ≤ 30)]
  have hcol : OldMath.collide ⟨314, 35, 50, 0, 10⟩ ⟨314, 65, 50, 1 / 2, 10⟩
      = (⟨314, 35, 50, 0, 10⟩, ⟨314, 65, 50, 0, 10⟩) := by
    simp only [OldMath.collide, breakVector_east, breakVector_west, hmn]
    norm_num
    simp [mergeVector_west 10 (by norm_num : (0 : ℝ) < 10),
      mergeVector_east 10 (by norm_num : (0 : ℝ) < 10)]
  exact ⟨hcol, by rw [hcol]; norm_num⟩

/-- Witness for C9 at the control-byte-free genome `[1, 2, 3]`. -/
theorem readGenome_no_control_bytes_witness :
    (∀ b ∈ [1, 2, 3], b < 0xF0) ∧
    (toGenes [1, 2, 3] = [] ∧
      (readGenome sampleGenomeSettings (fun _ _ _ => 0) [1, 2, 3]).size = 0 ∧
      (readGenome sampleGenomeSettings (fun _ _ _ => 0) [1, 2, 3]).spikes
        = [] ∧
      countTypeBits 0xF0 (toGenes [1, 2, 3]) = 0 ∧
      countTypeBits 0xF2 (toGenes [1, 2, 3]) = 0 ∧
      countTypeBits 0xF3 (toGenes [1, 2, 3]) = 0 ∧
      countTypeBits 0xF4 (toGenes [1, 2, 3]) = 0) :=
  ⟨by decide,
    readGenome_no_control_bytes sampleGenomeSettings (fun _ _ _ => 0)
      [1, 2, 3] (by decide)⟩

/-- Witness for C8 on an exhausted draw list (every roll is the limit value
`1`) and the sample settings. -/
theorem createGenome_gene_structure_witness :
    DrawsInUnit [] ∧
    (1 : ℚ) ≤ sampleGenomeSettings.maxGeneCount ∧
    (1 : ℚ) ≤ sampleGenomeSettings.maxGeneSize ∧
    ∃ genes : List (List ℕ),
      (createGenome sampleGenomeSettings []).1 = genes.flatten ∧
      1 ≤ genes.length ∧
      (genes.length : ℚ) ≤ sampleGenomeSettings.maxGeneCount ∧
      ∀ g ∈ genes, ∃ (c : ℕ) (body : List ℕ), g = c :: body ∧
        0xF0 ≤ c ∧ c < 256 ∧
        1 ≤ body.length ∧
        (body.length : ℚ) ≤ sampleGenomeSettings.maxGeneSize :=
  have h1 : DrawsInUnit [] := fun r hr => absurd hr (List.not_mem_nil r)
  have h2 : (1 : ℚ) ≤ sampleGenomeSettings.maxGeneCount := by
    norm_num [sampleGenomeSettings]
  have h3 : (1 : ℚ) ≤ sampleGenomeSettings.maxGeneSize := by
    norm_num [sampleGenomeSettings]
  ⟨h1, h2, h3, createGenome_gene_structure sampleGenomeSettings [] h1 h2 h3⟩

end MeebaFarm
